import Mathlib

/-!
Verification of the backup ingestion core of the proxmox-backup repository.

The development shallowly embeds three parts of the source:

* the backup session environment (`src/api2/backup/environment.rs`):
  the mutex-guarded `SharedBackupState` together with the operations of
  `BackupEnvironment`;
* the SCSI tape primitives (`src/tape/drive/lto/sg_tape.rs`):
  `write_block`, `write_filemarks`, `read_block`, `check_filemark`,
  modelled as functions of the outcome the device returns for each issued
  command;
* the worker-task registry (`src/server/worker_task.rs`): the `UPID`
  format/parse pair and the assemble/sort/truncate step of
  `update_active_workers`.

Machine integers are modelled as `Nat` with an explicit `% 2 ^ w`
wherever the source performs arithmetic that can wrap (`u64`/`usize`
counters and offsets).  File and device I/O is outside the state the
claims speak about; operations whose only I/O failure modes are
filesystem errors are modelled on their in-memory state effect.
-/

namespace PBS

/-- Opaque model of a 32-byte chunk digest (`[u8; 32]`); equality of
digests is byte equality, so any type with decidable equality is a
faithful key model. -/
abbrev Digest := Nat

/-- `2 ^ 32`, the number of `u32` values. -/
def U32LIM : Nat := 2 ^ 32

/-- `2 ^ 64`, the number of `u64` (and `usize`) values. -/
def U64LIM : Nat := 2 ^ 64

/-! ### Association lists

The source keeps the writer tables and the known-chunk table in
`HashMap`s.  They are modelled as association lists with
insert-or-replace semantics; keys stay unique. -/

/-- `HashMap::insert` (insert or replace). -/
def alInsert {α β : Type} [DecidableEq α] : List (α × β) → α → β → List (α × β)
  | [], k, v => [(k, v)]
  | (k', v') :: rest, k, v =>
    if k' = k then (k, v) :: rest else (k', v') :: alInsert rest k v

/-- `HashMap::get`. -/
def alLookup {α β : Type} [DecidableEq α] : List (α × β) → α → Option β
  | [], _ => none
  | (k', v') :: rest, k => if k' = k then some v' else alLookup rest k

/-- `HashMap::remove` (drops the entry for the key, if present). -/
def alRemove {α β : Type} [DecidableEq α] : List (α × β) → α → List (α × β)
  | [], _ => []
  | (k', v') :: rest, k => if k' = k then rest else (k', v') :: alRemove rest k

/-! ### Index writers

The index-writer implementations (`src/backup/dynamic_index.rs`,
`src/backup/fixed_index.rs`) are not among the provided source files;
only their callers in `environment.rs` are.  They are modelled from the
spec (section 4.2). -/

/-- Modelled from the spec: `DynamicIndexWriter` (its source file is not
part of the provided sources).  It persists a sequence of
`(end_offset, digest)` records; `add_chunk(new_end_offset, digest)`
appends one record and fails if `new_end_offset` does not strictly
increase.  The record list is kept most-recent-first. -/
structure DynamicIndexWriter where
  entries : List (Nat × Digest)
deriving DecidableEq

/-- The last end offset written to a dynamic index (0 for a fresh index). -/
def DynamicIndexWriter.lastOffset (w : DynamicIndexWriter) : Nat :=
  match w.entries with
  | [] => 0
  | (e, _) :: _ => e

/-- Modelled from the spec: `DynamicIndexWriter::add_chunk` fails unless
the new end offset strictly increases. -/
def DynamicIndexWriter.add_chunk (w : DynamicIndexWriter) (off : Nat) (digest : Digest) :
    Option DynamicIndexWriter :=
  if w.lastOffset < off then some ⟨(off, digest) :: w.entries⟩ else none

/-- Modelled from the spec: `FixedIndexWriter` (its source file is not
part of the provided sources).  It has a declared chunk size and a
declared number of slots; `add_digest` writes a digest into a slot that
was not written before. -/
structure FixedIndexWriter where
  chunk_size : Nat
  index_length : Nat
  digests : List (Nat × Digest)
deriving DecidableEq

/-- Modelled from the spec: `FixedIndexWriter::check_chunk_alignment`
returns the slot `end_offset / chunk_size - (size < chunk_size ? 0 : 1)`
and enforces `end_offset % chunk_size == 0` for all but the final slot. -/
def FixedIndexWriter.check_chunk_alignment (w : FixedIndexWriter) (endOff size : Nat) :
    Option Nat :=
  let slot := endOff / w.chunk_size - (if size < w.chunk_size then 0 else 1)
  if slot + 1 ≠ w.index_length ∧ endOff % w.chunk_size ≠ 0 then none
  else some slot

/-- Modelled from the spec: `FixedIndexWriter::add_digest` writes into a
specific slot; the same slot must not be written twice. -/
def FixedIndexWriter.add_digest (w : FixedIndexWriter) (slot : Nat) (digest : Digest) :
    Option FixedIndexWriter :=
  match alLookup w.digests slot with
  | some _ => none
  | none => some { w with digests := alInsert w.digests slot digest }

/-! ### Session state (`environment.rs`) -/

/-- `UploadStatistic` (all fields `u64`). -/
structure UploadStatistic where
  count : Nat
  size : Nat
  compressed_size : Nat
  duplicates : Nat
deriving DecidableEq

/-- `UploadStatistic::new()`. -/
def UploadStatistic.new : UploadStatistic :=
  { count := 0, size := 0, compressed_size := 0, duplicates := 0 }

/-- The statistics update performed by `register_fixed_chunk` and
`register_dynamic_chunk` (`u64` additions wrap). -/
def bumpStat (st : UploadStatistic) (size csize : Nat) (isDup : Bool) : UploadStatistic :=
  { count := (st.count + 1) % U64LIM
    size := (st.size + size) % U64LIM
    compressed_size := (st.compressed_size + csize) % U64LIM
    duplicates := if isDup then (st.duplicates + 1) % U64LIM else st.duplicates }

/-- `DynamicWriterState` (`offset` and `chunk_count` are `u64`). -/
structure DynamicWriterState where
  name : String
  index : DynamicIndexWriter
  offset : Nat
  chunk_count : Nat
  upload_stat : UploadStatistic
deriving DecidableEq

/-- `FixedWriterState` (`size` and `small_chunk_count` are `usize`,
`chunk_size` is `u32`, `chunk_count` is `u64`). -/
structure FixedWriterState where
  name : String
  index : FixedIndexWriter
  size : Nat
  chunk_size : Nat
  chunk_count : Nat
  small_chunk_count : Nat
  upload_stat : UploadStatistic
deriving DecidableEq

/-- `SharedBackupState`. -/
structure SharedBackupState where
  finished : Bool
  uid_counter : Nat
  file_counter : Nat
  dynamic_writers : List (Nat × DynamicWriterState)
  fixed_writers : List (Nat × FixedWriterState)
  known_chunks : List (Digest × Nat)
deriving DecidableEq

/-- The distinct `bail!` sites of the session environment, one
constructor per error path. -/
inductive BackupErr
  | alreadyFinished
  | unknownDynamicWriter (wid : Nat)
  | unknownFixedWriter (wid : Nat)
  | chunkTooLarge (size chunkSize : Nat)
  | multipleSmallChunks
  | unexpectedOffset (expected got : Nat)
  | badChunkOffset
  | badChunkAlignment
  | duplicateSlot
  | closeChunkCountMismatch (expected got : Nat)
  | closeWrongIndexLength (expected got : Nat)
  | closeSizeMismatch (expected got : Nat)
  | openIndexWriter
  | noFinishedFiles
  | notFinished
deriving DecidableEq

/-- An operation on the shared state: the returned value (or error)
together with the state left behind.  Errors raised after a mutation
leave the mutation in place, exactly as a `bail!` under the mutex does. -/
abbrev BackupStep (α : Type) := Except BackupErr α × SharedBackupState

/-- `BackupEnvironment::register_chunk`. -/
def register_chunk (s : SharedBackupState) (digest : Digest) (length : Nat) :
    BackupStep Unit :=
  if s.finished then (Except.error .alreadyFinished, s)
  else (Except.ok (), { s with known_chunks := alInsert s.known_chunks digest length })

/-- `BackupEnvironment::lookup_chunk`. -/
def lookup_chunk (s : SharedBackupState) (digest : Digest) : Option Nat :=
  alLookup s.known_chunks digest

/-- `BackupEnvironment::register_fixed_chunk`.  Note the order of the
source: the small-chunk counter is incremented *before* the
multiple-small-chunks check, so a failing call keeps the increment;
statistics and the known-chunk insert happen only on success. -/
def register_fixed_chunk (s : SharedBackupState) (wid : Nat) (digest : Digest)
    (size csize : Nat) (isDup : Bool) : BackupStep Unit :=
  if s.finished then (Except.error .alreadyFinished, s)
  else
    match alLookup s.fixed_writers wid with
    | none => (Except.error (.unknownFixedWriter wid), s)
    | some data =>
      if size > data.chunk_size then
        (Except.error (.chunkTooLarge size data.chunk_size), s)
      else if size < data.chunk_size then
        let data1 := { data with small_chunk_count := (data.small_chunk_count + 1) % U64LIM }
        if data1.small_chunk_count > 1 then
          (Except.error .multipleSmallChunks,
           { s with fixed_writers := alInsert s.fixed_writers wid data1 })
        else
          let data2 := { data1 with upload_stat := bumpStat data1.upload_stat size csize isDup }
          (Except.ok (),
           { s with fixed_writers := alInsert s.fixed_writers wid data2,
                    known_chunks := alInsert s.known_chunks digest size })
      else
        let data2 := { data with upload_stat := bumpStat data.upload_stat size csize isDup }
        (Except.ok (),
         { s with fixed_writers := alInsert s.fixed_writers wid data2,
                  known_chunks := alInsert s.known_chunks digest size })

/-- `BackupEnvironment::register_dynamic_chunk`. -/
def register_dynamic_chunk (s : SharedBackupState) (wid : Nat) (digest : Digest)
    (size csize : Nat) (isDup : Bool) : BackupStep Unit :=
  if s.finished then (Except.error .alreadyFinished, s)
  else
    match alLookup s.dynamic_writers wid with
    | none => (Except.error (.unknownDynamicWriter wid), s)
    | some data =>
      let data1 := { data with upload_stat := bumpStat data.upload_stat size csize isDup }
      (Except.ok (),
       { s with dynamic_writers := alInsert s.dynamic_writers wid data1,
                known_chunks := alInsert s.known_chunks digest size })

/-- `BackupEnvironment::register_dynamic_writer` (`next_uid` increments
the counter and returns the incremented value). -/
def register_dynamic_writer (s : SharedBackupState) (index : DynamicIndexWriter)
    (name : String) : BackupStep Nat :=
  if s.finished then (Except.error .alreadyFinished, s)
  else
    let uid := (s.uid_counter + 1) % U64LIM
    (Except.ok uid,
     { s with uid_counter := uid,
              dynamic_writers := alInsert s.dynamic_writers uid
                { name := name, index := index, offset := 0, chunk_count := 0,
                  upload_stat := UploadStatistic.new } })

/-- `BackupEnvironment::register_fixed_writer`. -/
def register_fixed_writer (s : SharedBackupState) (index : FixedIndexWriter)
    (name : String) (size chunkSize : Nat) : BackupStep Nat :=
  if s.finished then (Except.error .alreadyFinished, s)
  else
    let uid := (s.uid_counter + 1) % U64LIM
    (Except.ok uid,
     { s with uid_counter := uid,
              fixed_writers := alInsert s.fixed_writers uid
                { name := name, index := index, chunk_count := 0, size := size,
                  chunk_size := chunkSize, small_chunk_count := 0,
                  upload_stat := UploadStatistic.new } })

/-- `BackupEnvironment::dynamic_writer_append_chunk`.  The offset and
chunk-count bumps happen before `index.add_chunk`, so a failing
`add_chunk` leaves them in place. -/
def dynamic_writer_append_chunk (s : SharedBackupState) (wid offset size : Nat)
    (digest : Digest) : BackupStep Unit :=
  if s.finished then (Except.error .alreadyFinished, s)
  else
    match alLookup s.dynamic_writers wid with
    | none => (Except.error (.unknownDynamicWriter wid), s)
    | some data =>
      if data.offset ≠ offset then
        (Except.error (.unexpectedOffset data.offset offset), s)
      else
        let newOffset := (data.offset + size) % U64LIM
        let data1 := { data with offset := newOffset,
                                 chunk_count := (data.chunk_count + 1) % U64LIM }
        match data1.index.add_chunk newOffset digest with
        | none =>
          (Except.error .badChunkOffset,
           { s with dynamic_writers := alInsert s.dynamic_writers wid data1 })
        | some idx =>
          (Except.ok (),
           { s with dynamic_writers :=
              alInsert s.dynamic_writers wid ({ data1 with index := idx }) })

/-- `BackupEnvironment::fixed_writer_append_chunk`. -/
def fixed_writer_append_chunk (s : SharedBackupState) (wid offset size : Nat)
    (digest : Digest) : BackupStep Unit :=
  if s.finished then (Except.error .alreadyFinished, s)
  else
    match alLookup s.fixed_writers wid with
    | none => (Except.error (.unknownFixedWriter wid), s)
    | some data =>
      let endOff := (offset + size) % U64LIM
      match data.index.check_chunk_alignment endOff size with
      | none => (Except.error .badChunkAlignment, s)
      | some idx =>
        let data1 := { data with chunk_count := (data.chunk_count + 1) % U64LIM }
        match data1.index.add_digest idx digest with
        | none =>
          (Except.error .duplicateSlot,
           { s with fixed_writers := alInsert s.fixed_writers wid data1 })
        | some w =>
          (Except.ok (),
           { s with fixed_writers :=
              alInsert s.fixed_writers wid ({ data1 with index := w }) })

/-- `BackupEnvironment::dynamic_writer_close`.  The writer is removed
from the table before the count/size checks (so it stays removed when a
check fails); `index.close()` (trailer write and checksum) is I/O and is
modelled as succeeding. -/
def dynamic_writer_close (s : SharedBackupState) (wid chunkCount size : Nat) :
    BackupStep Unit :=
  if s.finished then (Except.error .alreadyFinished, s)
  else
    match alLookup s.dynamic_writers wid with
    | none => (Except.error (.unknownDynamicWriter wid), s)
    | some data =>
      let s1 := { s with dynamic_writers := alRemove s.dynamic_writers wid }
      if data.chunk_count ≠ chunkCount then
        (Except.error (.closeChunkCountMismatch data.chunk_count chunkCount), s1)
      else if data.offset ≠ size then
        (Except.error (.closeSizeMismatch data.offset size), s1)
      else
        (Except.ok (), { s1 with file_counter := (s1.file_counter + 1) % U64LIM })

/-- `BackupEnvironment::fixed_writer_close`. -/
def fixed_writer_close (s : SharedBackupState) (wid chunkCount size : Nat) :
    BackupStep Unit :=
  if s.finished then (Except.error .alreadyFinished, s)
  else
    match alLookup s.fixed_writers wid with
    | none => (Except.error (.unknownFixedWriter wid), s)
    | some data =>
      let s1 := { s with fixed_writers := alRemove s.fixed_writers wid }
      if data.chunk_count ≠ chunkCount then
        (Except.error (.closeChunkCountMismatch data.chunk_count chunkCount), s1)
      else if chunkCount ≠ data.index.index_length then
        (Except.error (.closeWrongIndexLength data.index.index_length chunkCount), s1)
      else if size ≠ data.size then
        (Except.error (.closeSizeMismatch data.size size), s1)
      else
        (Except.ok (), { s1 with file_counter := (s1.file_counter + 1) % U64LIM })

/-- `BackupEnvironment::add_blob`.  The source writes the blob file
(I/O, abstracted as succeeding) and then locks the state and increments
`file_counter`.  It never calls `ensure_unfinished`. -/
def add_blob (s : SharedBackupState) : BackupStep Unit :=
  (Except.ok (), { s with file_counter := (s.file_counter + 1) % U64LIM })

/-- `BackupEnvironment::finish_backup`.  Note the order of the source:
`finished` is set to `true` *before* the open-writer and file-count
checks, and only the dynamic writer table is checked for openness. -/
def finish_backup (s : SharedBackupState) : BackupStep Unit :=
  if s.finished then (Except.error .alreadyFinished, s)
  else
    let s1 := { s with finished := true }
    if s1.dynamic_writers.length ≠ 0 then (Except.error .openIndexWriter, s1)
    else if s1.file_counter = 0 then (Except.error .noFinishedFiles, s1)
    else (Except.ok (), s1)

/-- `BackupEnvironment::ensure_finished` (read-only). -/
def ensure_finished (s : SharedBackupState) : Except BackupErr Unit :=
  if s.finished then Except.ok () else Except.error .notFinished

/-- `BackupEnvironment::remove_backup`: sets `finished` and deletes the
snapshot directory (I/O, abstracted as succeeding). -/
def remove_backup (s : SharedBackupState) : BackupStep Unit :=
  (Except.ok (), { s with finished := true })

/-- The mutating operations of the session surface, for quantifying over
"every mutating session operation". -/
inductive SessionOp
  | opRegisterChunk (digest : Digest) (length : Nat)
  | opRegisterFixedChunk (wid : Nat) (digest : Digest) (size csize : Nat) (isDup : Bool)
  | opRegisterDynamicChunk (wid : Nat) (digest : Digest) (size csize : Nat) (isDup : Bool)
  | opRegisterDynamicWriter (index : DynamicIndexWriter) (name : String)
  | opRegisterFixedWriter (index : FixedIndexWriter) (name : String) (size chunkSize : Nat)
  | opDynamicWriterAppendChunk (wid offset size : Nat) (digest : Digest)
  | opFixedWriterAppendChunk (wid offset size : Nat) (digest : Digest)
  | opDynamicWriterClose (wid chunkCount size : Nat)
  | opFixedWriterClose (wid chunkCount size : Nat)
  | opAddBlob
  | opFinishBackup
  | opRemoveBackup
deriving DecidableEq

/-- Run a mutating operation; returned values (writer ids) are dropped,
keeping only success/error and the resulting state. -/
def runOp (op : SessionOp) (s : SharedBackupState) : BackupStep Unit :=
  match op with
  | .opRegisterChunk d l => register_chunk s d l
  | .opRegisterFixedChunk wid d sz c dup => register_fixed_chunk s wid d sz c dup
  | .opRegisterDynamicChunk wid d sz c dup => register_dynamic_chunk s wid d sz c dup
  | .opRegisterDynamicWriter idx n =>
    let r := register_dynamic_writer s idx n
    (r.1.map fun _ => (), r.2)
  | .opRegisterFixedWriter idx n sz cs =>
    let r := register_fixed_writer s idx n sz cs
    (r.1.map fun _ => (), r.2)
  | .opDynamicWriterAppendChunk wid off sz d => dynamic_writer_append_chunk s wid off sz d
  | .opFixedWriterAppendChunk wid off sz d => fixed_writer_append_chunk s wid off sz d
  | .opDynamicWriterClose wid cc sz => dynamic_writer_close s wid cc sz
  | .opFixedWriterClose wid cc sz => fixed_writer_close s wid cc sz
  | .opAddBlob => add_blob s
  | .opFinishBackup => finish_backup s
  | .opRemoveBackup => remove_backup s

/-! ### SCSI tape primitives (`sg_tape.rs`)

Each primitive issues one or more SCSI commands through `SgRaw` and
inspects the outcome; the device's answer to a command is a parameter of
the model.  A sense triple is `(sense_key, asc, ascq)`. -/

/-- Outcome of a SCSI command without data-in transfer: success, a sense
triple, or any other transport error. -/
inductive ScsiOutcome
  | ok
  | sense (key asc ascq : Nat)
  | fail
deriving DecidableEq

/-- Outcome of a data-in SCSI command (READ): success carries the length
of the returned data. -/
inductive ScsiInOutcome
  | ok (dataLen : Nat)
  | sense (key asc ascq : Nat)
  | fail
deriving DecidableEq

/-- `BlockReadStatus` (`src/tape/mod.rs` equivalent of the discriminated
read result). -/
inductive BlockReadStatus
  | ok (size : Nat)
  | endOfFile
  | endOfStream
deriving DecidableEq

/-- The `io_bail!` sites of the block primitives. -/
inductive TapeErr
  | dataTooLarge
  | bufferTooLarge
  | badFilemarkCount
  | cmdFailed
  | unexpectedBlockLen (got expected : Nat)
deriving DecidableEq

/-- `SgTape::write_block`: sense `(0, 0, 2)` (LEOM) is a *successful*
write reported as `Ok(true)`; plain success is `Ok(false)`. -/
def write_block (dataLen : Nat) (outcome : ScsiOutcome) : Except TapeErr Bool :=
  if dataLen > 0x800000 then Except.error .dataTooLarge
  else
    match outcome with
    | .ok => Except.ok false
    | .sense 0 0 2 => Except.ok true
    | _ => Except.error .cmdFailed

/-- `SgTape::write_filemarks`: sense `(0, 0, 2)` (LEOM) is ignored; the
function returns plain `Ok(())` in that case, indistinguishable from an
ordinary success.  `immediate` only changes a CDB byte. -/
def write_filemarks (count : Nat) (_immediate : Bool) (outcome : ScsiOutcome) :
    Except TapeErr Unit :=
  if count > 255 then Except.error .badFilemarkCount
  else
    match outcome with
    | .ok => Except.ok ()
    | .sense 0 0 2 => Except.ok ()
    | _ => Except.error .cmdFailed

/-- `SgTape::read_block`: sense `(0, 0, 1)` is `EndOfFile`, sense
`(8, 0, 5)` is `EndOfStream`; a successful transfer must return exactly
the requested length. -/
def read_block (bufLen : Nat) (outcome : ScsiInOutcome) : Except TapeErr BlockReadStatus :=
  if bufLen > 0xFFFFFF then Except.error .bufferTooLarge
  else
    match outcome with
    | .ok dataLen =>
      if dataLen ≠ bufLen then Except.error (.unexpectedBlockLen dataLen bufLen)
      else Except.ok (.ok bufLen)
    | .sense 0 0 1 => Except.ok .endOfFile
    | .sense 8 0 5 => Except.ok .endOfStream
    | _ => Except.error .cmdFailed

/-- A SPACE command as issued by `SgTape::space`: a signed count and the
code's `blocks` flag (`true` spaces over blocks, `false` over
filemarks). -/
structure SpaceCmd where
  count : Int
  blocks : Bool
deriving DecidableEq

/-- The error paths of `check_filemark`. -/
inductive CheckFilemarkErr
  | probeFailed
  | restoreFailed
  | stepFailed
deriving DecidableEq

/-- `SgTape::check_filemark`, modelled as the list of SPACE commands it
issues together with its result.  `objNumber` is the
`logical_object_number` reported by READ POSITION; `dev` is the device's
answer to each SPACE command.  The probe the source issues is
`space(-1, true)`, i.e. one *block* backwards. -/
def check_filemark (objNumber : Nat) (dev : SpaceCmd → ScsiOutcome) :
    List SpaceCmd × Except CheckFilemarkErr Bool :=
  if objNumber = 0 then ([], Except.ok true)
  else
    let c1 : SpaceCmd := { count := -1, blocks := true }
    match dev c1 with
    | .ok =>
      let c2 : SpaceCmd := { count := 1, blocks := true }
      match dev c2 with
      | .ok => ([c1, c2], Except.ok false)
      | _ => ([c1, c2], Except.error .restoreFailed)
    | .sense 0 0 1 =>
      let c3 : SpaceCmd := { count := 1, blocks := false }
      match dev c3 with
      | .ok => ([c1, c3], Except.ok true)
      | _ => ([c1, c3], Except.error .stepFailed)
    | _ => ([c1], Except.error .probeFailed)

/-! ### UPID (`worker_task.rs`)

Strings are modelled as `List Char`.  `Display for UPID` is string
concatenation with `{:08X}` hexadecimal fields; `FromStr for UPID` is an
anchored regular expression whose separators are `':'` and whose field
patterns cannot match `':'`, so matching is equivalent to splitting the
input on `':'` and validating each field. -/

/-- Uppercase hexadecimal digit, as `{:X}` produces (`0`-`9`, `A`-`F`). -/
def hexDigitChar (n : Nat) : Char :=
  if n < 10 then Char.ofNat (48 + n) else Char.ofNat (55 + n)

/-- Hexadecimal digits, least significant first, with a structural fuel
argument (`fuel > n` always suffices, since the value shrinks by a
factor of 16 each step). -/
def toHexAux : Nat → Nat → List Char
  | 0, _ => []
  | f + 1, n =>
    if n < 16 then [hexDigitChar n]
    else hexDigitChar (n % 16) :: toHexAux f (n / 16)

/-- Hexadecimal digits of `n`, least significant first. -/
def toHexRev (n : Nat) : List Char := toHexAux (n + 1) n

/-- Hexadecimal digits of `n`, most significant first (`{:X}`). -/
def toHex (n : Nat) : List Char := (toHexRev n).reverse

/-- `{:0wX}`: hexadecimal, zero-padded on the left to at least `w`
digits. -/
def padHex (w n : Nat) : List Char :=
  List.replicate (w - (toHex n).length) '0' ++ toHex n

/-- Value of one hexadecimal digit, accepting both cases
(`[0-9A-Fa-f]`). -/
def hexVal (c : Char) : Option Nat :=
  if 48 ≤ c.toNat ∧ c.toNat ≤ 57 then some (c.toNat - 48)
  else if 65 ≤ c.toNat ∧ c.toNat ≤ 70 then some (c.toNat - 55)
  else if 97 ≤ c.toNat ∧ c.toNat ≤ 102 then some (c.toNat - 87)
  else none

/-- Value of a hexadecimal string given least significant digit first. -/
def fromHexRev : List Char → Option Nat
  | [] => some 0
  | c :: rest =>
    match hexVal c, fromHexRev rest with
    | some v, some r => some (v + 16 * r)
    | _, _ => none

/-- `from_str_radix(_, 16)` on a non-empty digit string (most
significant first). -/
def fromHex (l : List Char) : Option Nat :=
  if l = [] then none else fromHexRev l.reverse

/-- Split a character list at every `':'`. -/
def splitColon : List Char → List (List Char)
  | [] => [[]]
  | c :: rest =>
    let r := splitColon rest
    if c = ':' then [] :: r
    else
      match r with
      | [] => [[c]]
      | h :: t => (c :: h) :: t

/-- Join character lists with `':'` between them. -/
def joinColon : List (List Char) → List Char
  | [] => []
  | [x] => x
  | x :: rest => x ++ ':' :: joinColon rest

/-- The code points matched by the regex class `\s` (Unicode
`White_Space`). -/
def wsChars : List Char :=
  [Char.ofNat 9, Char.ofNat 10, Char.ofNat 11, Char.ofNat 12, Char.ofNat 13,
   Char.ofNat 32, Char.ofNat 0x85, Char.ofNat 0xA0, Char.ofNat 0x1680,
   Char.ofNat 0x2000, Char.ofNat 0x2001, Char.ofNat 0x2002, Char.ofNat 0x2003,
   Char.ofNat 0x2004, Char.ofNat 0x2005, Char.ofNat 0x2006, Char.ofNat 0x2007,
   Char.ofNat 0x2008, Char.ofNat 0x2009, Char.ofNat 0x200A, Char.ofNat 0x2028,
   Char.ofNat 0x2029, Char.ofNat 0x202F, Char.ofNat 0x205F, Char.ofNat 0x3000]

/-- A character the class `[^:\s]` accepts. -/
def plainChar (c : Char) : Bool := ¬ (c = ':' ∨ c ∈ wsChars)

/-- `[a-zA-Z0-9]`. -/
def isAlnum (c : Char) : Bool :=
  (48 ≤ c.toNat ∧ c.toNat ≤ 57) ∨ (65 ≤ c.toNat ∧ c.toNat ≤ 90) ∨
    (97 ≤ c.toNat ∧ c.toNat ≤ 122)

/-- Tail of the node pattern: all characters `[a-zA-Z0-9-]`, the last one
alphanumeric. -/
def nodeTail : List Char → Bool
  | [] => true
  | [c] => isAlnum c
  | c :: rest => (isAlnum c || c = '-') && nodeTail rest

/-- The regex `[a-zA-Z0-9]([a-zA-Z0-9\-]*[a-zA-Z0-9])?` for the node
name. -/
def nodeOk : List Char → Bool
  | [] => false
  | c :: rest => isAlnum c && nodeTail rest

/-- `UPID` (`pid` is `libc::pid_t = i32`, `pstart` is `u64`, `starttime`
is `i64`, `task_id` is `usize`). -/
structure UPID where
  pid : Int
  pstart : Nat
  starttime : Int
  task_id : Nat
  worker_type : List Char
  worker_id : Option (List Char)
  username : List Char
  node : List Char
deriving DecidableEq

/-- The 32-bit two's-complement bit pattern `{:X}` prints for an `i32`. -/
def i32bits (v : Int) : Nat := (v % (2 ^ 32 : Int)).toNat

/-- The 64-bit two's-complement bit pattern `{:X}` prints for an `i64`. -/
def i64bits (v : Int) : Nat := (v % (2 ^ 64 : Int)).toNat

/-- `Display for UPID`:
`UPID:{node}:{pid:08X}:{pstart:08X}:{task_id:08X}:{starttime:08X}:{wtype}:{wid}:{username}:`
(a `None` worker id prints as the empty string). -/
def upidFormat (u : UPID) : List Char :=
  joinColon [['U', 'P', 'I', 'D'], u.node, padHex 8 (i32bits u.pid),
             padHex 8 u.pstart, padHex 8 u.task_id, padHex 8 (i64bits u.starttime),
             u.worker_type, u.worker_id.getD [], u.username, []]

/-- A hex field of the regex: between `minL` and `maxL` digits
`[0-9A-Fa-f]`, converted with `from_str_radix(_, 16)`. -/
def hexField (minL maxL : Nat) (l : List Char) : Option Nat :=
  if minL ≤ l.length ∧ l.length ≤ maxL ∧ l.all (fun c => (hexVal c).isSome)
  then fromHex l else none

/-- `FromStr for UPID`.  The anchored regex is equivalent to splitting on
`':'` into exactly ten parts (the leading `UPID` tag, eight fields, and
the empty part after the trailing colon) and validating each field,
because no field pattern can match `':'`.  The source converts the `pid`
field with `i32::from_str_radix(..).unwrap()`, which panics for values
above `i32::MAX`; the panic is modelled as a parse failure. -/
def upidParse (s : List Char) : Option UPID :=
  match splitColon s with
  | [tag, node, pidS, pstartS, taskS, startS, wtypeS, widS, userS, last] =>
    if tag = ['U', 'P', 'I', 'D'] ∧ last = [] ∧ nodeOk node ∧
        wtypeS ≠ [] ∧ wtypeS.all plainChar ∧ widS.all plainChar ∧
        userS ≠ [] ∧ userS.all plainChar then
      match hexField 8 8 pidS, hexField 8 9 pstartS, hexField 8 16 taskS,
          hexField 8 8 startS with
      | some pidv, some pstartv, some taskv, some startv =>
        if pidv ≤ 0x7FFFFFFF then
          some { pid := Int.ofNat pidv, pstart := pstartv,
                 starttime := Int.ofNat startv, task_id := taskv,
                 worker_type := wtypeS,
                 worker_id := if widS = [] then none else some widS,
                 username := userS, node := node }
        else none
      | _, _, _, _ => none
    else none
  | _ => none

/-! ### Active-task file update (`update_active_workers`)

After the reconciliation loop has classified each recorded task as
running (`active_list`, `state = None`) or finished (`finish_list`,
`state = Some (endtime, status)`), the source assembles a map keyed by
the UPID string, fills it with finished entries up to a cap, sorts the
values, and writes one row per entry.  That
assemble/fill/sort step is modelled here; rows appear in the file in
list order. -/

/-- `TaskListInfo`: the UPID string (the map key), the start time used by
the comparator, and `state = Some (endtime, status)` for a finished
task. -/
structure TaskListInfo where
  upid_str : String
  starttime : Int
  state : Option (Int × String)
deriving DecidableEq

/-- `i64::cmp`. -/
def cmpInt (a b : Int) : Ordering :=
  if a < b then Ordering.lt else if a = b then Ordering.eq else Ordering.gt

/-- The comparator passed to `sort_unstable_by`: two finished tasks
compare by end time, a finished task sorts *before* an active one, and
two active tasks compare by start time. -/
def cmpTask (a b : TaskListInfo) : Ordering :=
  match a.state, b.state with
  | some s1, some s2 => cmpInt s1.1 s2.1
  | some _, none => Ordering.lt
  | none, some _ => Ordering.gt
  | none, none => cmpInt a.starttime b.starttime

/-- The fill loop: for each finished task, stop once the map holds more
than `max` entries (the cap counts active and finished entries
together), and otherwise insert it unless its key is already present. -/
def fillFinish (maxEntries : Nat) :
    List (String × TaskListInfo) → List TaskListInfo → List (String × TaskListInfo)
  | m, [] => m
  | m, info :: rest =>
    if m.length > maxEntries then m
    else if (alLookup m info.upid_str).isSome then fillFinish maxEntries m rest
    else fillFinish maxEntries (alInsert m info.upid_str info) rest

/-- Build `task_hash`: all active entries (later duplicates overwrite
earlier ones), then finished entries through the fill loop with
`max = 1000`. -/
def buildTaskHash (active finish : List TaskListInfo) : List (String × TaskListInfo) :=
  fillFinish 1000 (active.foldl (fun m i => alInsert m i.upid_str i) []) finish

/-- Insert into a list sorted by `cmpTask` (insertion models the order
`sort_unstable_by` establishes: every element is placed before the first
element it does not compare `Greater` to). -/
def insertSorted (x : TaskListInfo) : List TaskListInfo → List TaskListInfo
  | [] => [x]
  | y :: rest =>
    if cmpTask x y = Ordering.gt then y :: insertSorted x rest else x :: y :: rest

/-- Sort by `cmpTask` (a sort producing the comparator's order, as
`sort_unstable_by` does). -/
def sortTasks : List TaskListInfo → List TaskListInfo
  | [] => []
  | x :: rest => insertSorted x (sortTasks rest)

/-- The rows `update_active_workers` writes, in file order: the values of
`task_hash` sorted by the comparator. -/
def updateActiveWorkers (active finish : List TaskListInfo) : List TaskListInfo :=
  sortTasks ((buildTaskHash active finish).map (fun p => p.2))

/-! ### Append sequences on a dynamic writer

Machinery for the property over whole sequences of
`dynamic_writer_append_chunk` calls: a call is a triple
`(offset, size, digest)`. -/

/-- Run a list of `dynamic_writer_append_chunk` calls in order; the run
succeeds when every call succeeds. -/
def runDynAppends (wid : Nat) :
    SharedBackupState → List (Nat × Nat × Digest) → Except BackupErr SharedBackupState
  | s, [] => Except.ok s
  | s, (off, size, d) :: rest =>
    match dynamic_writer_append_chunk s wid off size d with
    | (Except.ok _, s1) => runDynAppends wid s1 rest
    | (Except.error e, _) => Except.error e

/-- The spec's condition on a call sequence, starting from running sum
`acc`: each offset is the running sum of the sizes before it and each
size is strictly positive. -/
def goodSeq : Nat → List (Nat × Nat × Digest) → Bool
  | _, [] => true
  | acc, (off, size, _) :: rest => off = acc && 0 < size && goodSeq (acc + size) rest

/-- Sum of the sizes of a call sequence. -/
def sumSizes (L : List (Nat × Nat × Digest)) : Nat := (L.map (fun t => t.2.1)).sum

/-- The writer state a successful non-wrapping append leaves behind:
offset advanced, chunk count bumped, the new end offset recorded in the
index. -/
def stepWriter (data : DynamicWriterState) (size : Nat) (d : Digest) : DynamicWriterState :=
  { data with offset := data.offset + size,
              chunk_count := (data.chunk_count + 1) % U64LIM,
              index := { entries := (data.offset + size, d) :: data.index.entries } }

/-- The calls are well-typed machine values: every offset is a `u64` and
every size a `u32`. -/
def validSeq (L : List (Nat × Nat × Digest)) : Prop :=
  ∀ t ∈ L, t.1 < U64LIM ∧ t.2.1 < U32LIM

/-- `n` equal-sized appends at the running-sum offsets, starting at
offset `start`: the shape every in-order client upload has. -/
def prog (s : Nat) : Nat → Nat → List (Nat × Nat × Digest)
  | _, 0 => []
  | start, n + 1 => (start, s, 0) :: prog s (start + s) n

/-- A sequence of `2 ^ 32 + 2` maximal (`u32`) chunks at their
running-sum offsets; every offset fits in a `u64` yet the total size
does not. -/
def wrapSeq : List (Nat × Nat × Digest) := prog (2 ^ 32 - 1) 0 (2 ^ 32 + 2)

/-! ### Concrete example states -/

/-- A freshly registered dynamic writer (as `register_dynamic_writer`
creates it). -/
def dynWriter0 : DynamicWriterState :=
  { name := "root.pxar.didx", index := { entries := [] }, offset := 0,
    chunk_count := 0, upload_stat := UploadStatistic.new }

/-- A freshly registered fixed writer for a 1 MiB image with 512 KiB
chunks. -/
def fixWriter0 : FixedWriterState :=
  { name := "img.fidx",
    index := { chunk_size := 524288, index_length := 2, digests := [] },
    size := 1048576, chunk_size := 524288, chunk_count := 0,
    small_chunk_count := 0, upload_stat := UploadStatistic.new }

/-- A session with one open fixed writer, one finished file, and no open
dynamic writer. -/
def stateOpenFixed : SharedBackupState :=
  { finished := false, uid_counter := 1, file_counter := 1,
    dynamic_writers := [], fixed_writers := [(1, fixWriter0)], known_chunks := [] }

/-- A session with one open dynamic writer and one finished file. -/
def stateOpenDynamic : SharedBackupState :=
  { finished := false, uid_counter := 1, file_counter := 1,
    dynamic_writers := [(1, dynWriter0)], fixed_writers := [], known_chunks := [] }

/-- A session whose `finished` latch is set. -/
def stateFinished : SharedBackupState :=
  { finished := true, uid_counter := 0, file_counter := 1,
    dynamic_writers := [], fixed_writers := [], known_chunks := [] }

/-- The fixed writer after one small chunk was registered. -/
def fixWriter1 : FixedWriterState := { fixWriter0 with small_chunk_count := 1 }

/-- `stateOpenFixed` after one small chunk was registered on writer 1
(statistics elided: they are irrelevant to the small-chunk check). -/
def stateOneSmall : SharedBackupState :=
  { stateOpenFixed with fixed_writers := [(1, fixWriter1)] }

/-- A device that answers every SPACE command with plain success. -/
def devAllOk : SpaceCmd → ScsiOutcome := fun _ => ScsiOutcome.ok

/-- A device whose backwards SPACE reports the *filemark encountered*
sense `(0, 0, 1)` and that accepts every other SPACE command. -/
def devAtFilemark : SpaceCmd → ScsiOutcome := fun c =>
  if c.count < 0 then ScsiOutcome.sense 0 0 1 else ScsiOutcome.ok

/-- A UPID whose worker id is `Some("")`. -/
def upidEmptyWid : UPID :=
  { pid := 1, pstart := 2, starttime := 3, task_id := 4, worker_type := ['t'],
    worker_id := some [], username := ['u'], node := ['n'] }

/-- One running task. -/
def taskActive : TaskListInfo := { upid_str := "a", starttime := 0, state := none }

/-- One finished task. -/
def taskFinished : TaskListInfo :=
  { upid_str := "f", starttime := 0, state := some (5, "OK") }

/-! ## Association-list lemmas -/

theorem alLookup_alInsert {α β : Type} [DecidableEq α] (m : List (α × β)) (k : α) (v : β) :
    alLookup (alInsert m k v) k = some v := by
  induction m with
  | nil => simp [alInsert, alLookup]
  | cons p rest ih =>
    obtain ⟨k', v'⟩ := p
    by_cases h : k' = k <;> simp [alInsert, alLookup, h, ih]

theorem alInsert_self {α β : Type} [DecidableEq α] (m : List (α × β)) (k : α) (v : β)
    (h : alLookup m k = some v) : alInsert m k v = m := by
  induction m with
  | nil => simp [alLookup] at h
  | cons p rest ih =>
    obtain ⟨k', v'⟩ := p
    by_cases hk : k' = k
    · simp [alLookup, hk] at h
      simp [alInsert, hk, h]
    · simp [alLookup, hk] at h
      simp [alInsert, hk, ih h]

theorem alInsert_alInsert {α β : Type} [DecidableEq α] (m : List (α × β)) (k : α)
    (v1 v2 : β) : alInsert (alInsert m k v1) k v2 = alInsert m k v2 := by
  induction m with
  | nil => simp [alInsert]
  | cons p rest ih =>
    obtain ⟨k', v'⟩ := p
    by_cases h : k' = k <;> simp [alInsert, h, ih]

theorem alInsert_length {α β : Type} [DecidableEq α] (m : List (α × β)) (k : α) (v : β) :
    (alInsert m k v).length ≤ m.length + 1 := by
  induction m with
  | nil => simp [alInsert]
  | cons p rest ih =>
    obtain ⟨k', v'⟩ := p
    by_cases h : k' = k <;> simp [alInsert, h]
    omega

/-! ## C1: `finish_backup` and the fixed-writer table -/

/-- C1: the claim states that `finish_backup` fails whenever a fixed
writer is still open.  The code checks only `dynamic_writers`: evaluated
at a session whose fixed-writer table is non-empty (and with
`file_counter = 1`, no open dynamic writer), `finish_backup` *succeeds*
and latches `finished`.  This contradicts the claim (and the spec flags
the missing `fixed_writers` check as a bug of the source). -/
theorem finish_backup_accepts_open_fixed_writer :
    stateOpenFixed.fixed_writers ≠ [] ∧
    (finish_backup stateOpenFixed).1 = Except.ok () ∧
    (finish_backup stateOpenFixed).2.finished = true :=
  ⟨by decide, rfl, rfl⟩

/-! ## C2: a failed `finish_backup` latches the session -/

/-- C2 (amended): when `finish_backup` fails because a dynamic index
writer is still open, the `finished` latch has *already* been set (the
source sets it before the checks), so the session does not keep
accepting operations: `dynamic_writer_close` on the open writer and a
retried `finish_backup` both fail with the already-finished error. -/
theorem finish_backup_latch_on_failure (s : SharedBackupState) (wid cc sz : Nat)
    (hfin : s.finished = false) (hopen : s.dynamic_writers ≠ []) :
    (finish_backup s).1 = Except.error BackupErr.openIndexWriter ∧
    (finish_backup s).2.finished = true ∧
    (dynamic_writer_close (finish_backup s).2 wid cc sz).1 =
      Except.error BackupErr.alreadyFinished ∧
    (finish_backup (finish_backup s).2).1 = Except.error BackupErr.alreadyFinished := by
  have hlen : s.dynamic_writers.length ≠ 0 := by simpa using hopen
  simp [finish_backup, dynamic_writer_close, hfin, hlen]

/-- C2 witness: the amended behaviour at a concrete session with one
open dynamic writer. -/
theorem finish_backup_latch_on_failure_witness :
    stateOpenDynamic.finished = false ∧ stateOpenDynamic.dynamic_writers ≠ [] ∧
    ((finish_backup stateOpenDynamic).1 = Except.error BackupErr.openIndexWriter ∧
     (finish_backup stateOpenDynamic).2.finished = true ∧
     (dynamic_writer_close (finish_backup stateOpenDynamic).2 1 0 0).1 =
       Except.error BackupErr.alreadyFinished ∧
     (finish_backup (finish_backup stateOpenDynamic).2).1 =
       Except.error BackupErr.alreadyFinished) :=
  ⟨rfl, by decide, finish_backup_latch_on_failure stateOpenDynamic 1 0 0 rfl (by decide)⟩

/-- C2 counterexample: the claim states that after a failed
`finish_backup` the open dynamic writer can still be closed (and a retry
then succeeds).  At a concrete session with one open dynamic writer, the
close is rejected with the already-finished error instead. -/
theorem close_after_failed_finish_rejected :
    (finish_backup stateOpenDynamic).1 = Except.error BackupErr.openIndexWriter ∧
    (dynamic_writer_close (finish_backup stateOpenDynamic).2 1 0 0).1 =
      Except.error BackupErr.alreadyFinished :=
  ⟨rfl, rfl⟩

/-! ## C3: the `finished` latch and `add_blob` -/

/-- C3 (amended): once `finished` is set, every mutating session
operation that calls `ensure_unfinished` fails with the already-finished
error — that is every operation except `add_blob` and `remove_backup`.
`add_blob` performs no latch check: it succeeds even on a finished
session and still increments `file_counter`; `remove_backup` succeeds by
design. -/
theorem finished_latch_guards (s : SharedBackupState) (op : SessionOp)
    (hfin : s.finished = true)
    (hnb : op ≠ SessionOp.opAddBlob) (hnr : op ≠ SessionOp.opRemoveBackup) :
    (runOp op s).1 = Except.error BackupErr.alreadyFinished ∧
    (runOp SessionOp.opAddBlob s).1 = Except.ok () ∧
    (runOp SessionOp.opAddBlob s).2.file_counter = (s.file_counter + 1) % U64LIM ∧
    (runOp SessionOp.opRemoveBackup s).1 = Except.ok () := by
  refine ⟨?_, rfl, rfl, rfl⟩
  cases op <;>
    simp [runOp, register_chunk, register_fixed_chunk, register_dynamic_chunk,
      register_dynamic_writer, register_fixed_writer, dynamic_writer_append_chunk,
      fixed_writer_append_chunk, dynamic_writer_close, fixed_writer_close, add_blob,
      finish_backup, remove_backup, Except.map, hfin] at hnb hnr ⊢

/-- C3 witness: the guard at a concrete finished session and a concrete
guarded operation (`register_chunk`). -/
theorem finished_latch_guards_witness :
    stateFinished.finished = true ∧
    ((runOp (SessionOp.opRegisterChunk 0 0) stateFinished).1 =
       Except.error BackupErr.alreadyFinished ∧
     (runOp SessionOp.opAddBlob stateFinished).1 = Except.ok () ∧
     (runOp SessionOp.opAddBlob stateFinished).2.file_counter =
       (stateFinished.file_counter + 1) % U64LIM ∧
     (runOp SessionOp.opRemoveBackup stateFinished).1 = Except.ok ()) :=
  ⟨rfl, finished_latch_guards stateFinished (SessionOp.opRegisterChunk 0 0) rfl
    (by decide) (by decide)⟩

/-- C3 counterexample: the claim states that `add_blob` fails after
`finish_backup`.  On a concrete finished session, `add_blob` succeeds
and increments `file_counter`. -/
theorem add_blob_after_finish_succeeds :
    stateFinished.finished = true ∧
    (add_blob stateFinished).1 = Except.ok () ∧
    (add_blob stateFinished).2.file_counter = 2 :=
  ⟨rfl, rfl, by decide⟩

/-! ## C5: `register_fixed_chunk` -/

/-- C5: on an unfinished session and a registered fixed writer,
`register_fixed_chunk` fails with the chunk-too-large error when
`size > chunk_size`; succeeds for a small chunk when none was seen
before, recording the statistics and inserting the digest into the
known-chunk map; fails with the multiple-small-chunks error for every
further small chunk; and succeeds likewise for a full-sized chunk.
(The hypothesis `small_chunk_count + 1 < 2 ^ 64` rules out wrap-around
of the `usize` counter; it holds in every session that has performed
fewer than `2 ^ 64 - 1` register calls.) -/
theorem register_fixed_chunk_spec (s : SharedBackupState) (wid : Nat)
    (data : FixedWriterState) (digest : Digest) (size csize : Nat) (isDup : Bool)
    (hfin : s.finished = false)
    (hw : alLookup s.fixed_writers wid = some data)
    (hwrap : data.small_chunk_count + 1 < U64LIM) :
    (size > data.chunk_size →
      (register_fixed_chunk s wid digest size csize isDup).1 =
        Except.error (BackupErr.chunkTooLarge size data.chunk_size)) ∧
    (size < data.chunk_size → data.small_chunk_count = 0 →
      register_fixed_chunk s wid digest size csize isDup =
        (Except.ok (),
         { s with
             fixed_writers :=
               alInsert s.fixed_writers wid
                 { data with small_chunk_count := 1,
                             upload_stat := bumpStat data.upload_stat size csize isDup },
             known_chunks := alInsert s.known_chunks digest size })) ∧
    (size < data.chunk_size → 1 ≤ data.small_chunk_count →
      (register_fixed_chunk s wid digest size csize isDup).1 =
        Except.error BackupErr.multipleSmallChunks) ∧
    (size = data.chunk_size →
      register_fixed_chunk s wid digest size csize isDup =
        (Except.ok (),
         { s with
             fixed_writers :=
               alInsert s.fixed_writers wid
                 { data with upload_stat := bumpStat data.upload_stat size csize isDup },
             known_chunks := alInsert s.known_chunks digest size })) := by
  have hmod : (data.small_chunk_count + 1) % U64LIM = data.small_chunk_count + 1 :=
    Nat.mod_eq_of_lt hwrap
  refine ⟨?_, ?_, ?_, ?_⟩
  · intro hgt
    simp [register_fixed_chunk, hfin, hw, hgt]
  · intro hlt h0
    rw [h0] at hmod
    simp [register_fixed_chunk, hfin, hw, Nat.lt_asymm hlt, hlt, h0, hmod]
  · intro hlt h1
    have hgt1 : data.small_chunk_count + 1 > 1 := by omega
    simp [register_fixed_chunk, hfin, hw, Nat.lt_asymm hlt, hlt, hmod, hgt1]
  · intro heq
    simp [register_fixed_chunk, hfin, hw, heq]

/-- C5 witness: the first small chunk on a fresh fixed writer succeeds
and an oversized chunk is rejected, at concrete inputs. -/
theorem register_fixed_chunk_spec_witness :
    (register_fixed_chunk stateOpenFixed 1 7 600000 1000 false).1 =
      Except.error (BackupErr.chunkTooLarge 600000 524288) ∧
    (register_fixed_chunk stateOpenFixed 1 7 262144 1000 false).1 = Except.ok () := by
  have h1 := register_fixed_chunk_spec stateOpenFixed 1 fixWriter0 7 600000 1000 false
    rfl (by decide) (by decide)
  have h2 := register_fixed_chunk_spec stateOpenFixed 1 fixWriter0 7 262144 1000 false
    rfl (by decide) (by decide)
  refine ⟨h1.1 (by decide), ?_⟩
  rw [h2.2.1 (by decide) rfl]

/-! ## C10: a failing small-chunk register keeps its counter bump -/

/-- C10: a `register_fixed_chunk` call that fails with the
multiple-small-chunks error still leaves `small_chunk_count`
incremented (the bump precedes the limit check), while the writer's
upload statistics and the session's known-chunk map are unchanged: the
resulting state differs from the input state exactly in that one
counter field of that one writer. -/
theorem register_fixed_chunk_nonatomic (s : SharedBackupState) (wid : Nat)
    (data : FixedWriterState) (digest : Digest) (size csize : Nat) (isDup : Bool)
    (hfin : s.finished = false)
    (hw : alLookup s.fixed_writers wid = some data)
    (hsmall : size < data.chunk_size)
    (hprev : 1 ≤ data.small_chunk_count)
    (hwrap : data.small_chunk_count + 1 < U64LIM) :
    register_fixed_chunk s wid digest size csize isDup =
      (Except.error BackupErr.multipleSmallChunks,
       { s with
           fixed_writers :=
             alInsert s.fixed_writers wid
               { data with small_chunk_count := data.small_chunk_count + 1 } }) := by
  have hmod : (data.small_chunk_count + 1) % U64LIM = data.small_chunk_count + 1 :=
    Nat.mod_eq_of_lt hwrap
  have hgt1 : data.small_chunk_count + 1 > 1 := by omega
  simp [register_fixed_chunk, hfin, hw, Nat.lt_asymm hsmall, hsmall, hmod, hgt1]

/-- C10 witness: the non-atomic failure at a concrete session whose
writer has already seen one small chunk. -/
theorem register_fixed_chunk_nonatomic_witness :
    register_fixed_chunk stateOneSmall 1 7 262144 1000 false =
      (Except.error BackupErr.multipleSmallChunks,
       { stateOneSmall with
           fixed_writers :=
             alInsert stateOneSmall.fixed_writers 1
               { fixWriter1 with small_chunk_count := 2 } }) :=
  register_fixed_chunk_nonatomic stateOneSmall 1 fixWriter1 7 262144 1000 false
    rfl (by decide) (by decide) (by decide) (by decide)

/-! ## C6: SCSI sense reclassification -/

/-- C6 (amended): the three sense triples are reclassified as non-error
results — `write_block` reports `(0, 0, 2)` (LEOM) as the successful
result `Ok(true)`; `write_filemarks` treats `(0, 0, 2)` as a plain
success, returning the same unit `Ok(())` as an ordinary completion (no
`leom` boolean reaches its caller); `read_block` reports `(0, 0, 1)` as
`EndOfFile` and `(8, 0, 5)` as `EndOfStream`; none of the three raises
an error. -/
theorem scsi_sense_reclassification (len flen count : Nat) (imm : Bool)
    (hlen : len ≤ 0x800000) (hflen : flen ≤ 0xFFFFFF) (hcount : count ≤ 255) :
    write_block len (ScsiOutcome.sense 0 0 2) = Except.ok true ∧
    write_block len ScsiOutcome.ok = Except.ok false ∧
    write_filemarks count imm (ScsiOutcome.sense 0 0 2) = Except.ok () ∧
    write_filemarks count imm ScsiOutcome.ok = Except.ok () ∧
    read_block flen (ScsiInOutcome.sense 0 0 1) = Except.ok BlockReadStatus.endOfFile ∧
    read_block flen (ScsiInOutcome.sense 8 0 5) = Except.ok BlockReadStatus.endOfStream := by
  refine ⟨?_, ?_, ?_, ?_, ?_, ?_⟩ <;>
    simp [write_block, write_filemarks, read_block, Nat.not_lt.2 hlen,
      Nat.not_lt.2 hflen, Nat.not_lt.2 hcount]

/-- C6 witness: the reclassification at maximal valid transfer lengths
and filemark count. -/
theorem scsi_sense_reclassification_witness :
    (0x800000 ≤ 0x800000 ∧ 0xFFFFFF ≤ 0xFFFFFF ∧ 255 ≤ 255) ∧
    (write_block 0x800000 (ScsiOutcome.sense 0 0 2) = Except.ok true ∧
     write_block 0x800000 ScsiOutcome.ok = Except.ok false ∧
     write_filemarks 255 true (ScsiOutcome.sense 0 0 2) = Except.ok () ∧
     write_filemarks 255 true ScsiOutcome.ok = Except.ok () ∧
     read_block 0xFFFFFF (ScsiInOutcome.sense 0 0 1) =
       Except.ok BlockReadStatus.endOfFile ∧
     read_block 0xFFFFFF (ScsiInOutcome.sense 8 0 5) =
       Except.ok BlockReadStatus.endOfStream) :=
  ⟨⟨by decide, by decide, by decide⟩,
   scsi_sense_reclassification 0x800000 0xFFFFFF 255 true
     (by decide) (by decide) (by decide)⟩

/-- C6 counterexample: the claim states that `write_filemarks` reports
LEOM sense `(0, 0, 2)` "as a boolean `leom = true` returned to the
caller".  The function returns `Result<(), _>`: its result on the LEOM
sense is identical to its result on a plain success, so no LEOM
indication reaches the caller at all. -/
theorem write_filemarks_leom_invisible :
    write_filemarks 1 false (ScsiOutcome.sense 0 0 2) =
      write_filemarks 1 false ScsiOutcome.ok :=
  rfl

/-! ## C7: `check_filemark` -/

/-- C7 (amended): `check_filemark` distinguishes exactly three cases by
issuing a SPACE command with count `-1` over *blocks*: (a) at BOT
(logical object number 0) it returns `true` without issuing any SPACE
command; (b) if the backwards SPACE returns the filemark-encountered
sense `(0, 0, 1)`, it steps forward one *filemark* and returns `true`;
(c) if the backwards SPACE succeeds, it steps forward one *block* to
restore the position and returns `false`. -/
theorem check_filemark_cases (n : Nat) (dev : SpaceCmd → ScsiOutcome) (hn : n ≠ 0) :
    check_filemark 0 dev = ([], Except.ok true) ∧
    (dev { count := -1, blocks := true } = ScsiOutcome.sense 0 0 1 →
      dev { count := 1, blocks := false } = ScsiOutcome.ok →
      check_filemark n dev =
        ([{ count := -1, blocks := true }, { count := 1, blocks := false }],
         Except.ok true)) ∧
    (dev { count := -1, blocks := true } = ScsiOutcome.ok →
      dev { count := 1, blocks := true } = ScsiOutcome.ok →
      check_filemark n dev =
        ([{ count := -1, blocks := true }, { count := 1, blocks := true }],
         Except.ok false)) := by
  refine ⟨by simp [check_filemark], ?_, ?_⟩ <;>
    intro h1 h2 <;> simp [check_filemark, hn, h1, h2]

/-- C7 witness: the three cases at concrete devices — one answering the
backwards SPACE with the filemark sense, one accepting every SPACE. -/
theorem check_filemark_cases_witness :
    (1 : Nat) ≠ 0 ∧
    check_filemark 0 devAtFilemark = ([], Except.ok true) ∧
    check_filemark 1 devAtFilemark =
      ([{ count := -1, blocks := true }, { count := 1, blocks := false }],
       Except.ok true) ∧
    check_filemark 1 devAllOk =
      ([{ count := -1, blocks := true }, { count := 1, blocks := true }],
       Except.ok false) := by
  have ha := check_filemark_cases 1 devAtFilemark (by decide)
  have hb := check_filemark_cases 1 devAllOk (by decide)
  exact ⟨by decide, ha.1, ha.2.1 (by decide) (by decide), hb.2.2 (by decide) (by decide)⟩

/-- C7 counterexample: the claim states the probe is a SPACE with count
`-1` over *filemarks*.  At a concrete position off BOT, the trace of
issued SPACE commands contains no filemark-wise command with count `-1`;
the probe actually issued spaces over blocks. -/
theorem check_filemark_probe_is_blockwise :
    (check_filemark 1 devAllOk).1 =
      [{ count := -1, blocks := true }, { count := 1, blocks := true }] ∧
    ({ count := -1, blocks := false } : SpaceCmd) ∉ (check_filemark 1 devAllOk).1 := by
  exact ⟨rfl, by decide⟩

/-! ## C9: the active-task file after `update_active_workers` -/

theorem cmpTask_asymm (a b : TaskListInfo) (h : cmpTask a b = Ordering.gt) :
    cmpTask b a ≠ Ordering.gt := by
  unfold cmpTask cmpInt at *
  rcases ha : a.state with _ | s1 <;> rcases hb : b.state with _ | s2 <;>
    simp [ha, hb] at h ⊢ <;> omega

theorem cmpTask_le_trans (a b c : TaskListInfo) (hab : cmpTask a b ≠ Ordering.gt)
    (hbc : cmpTask b c ≠ Ordering.gt) : cmpTask a c ≠ Ordering.gt := by
  unfold cmpTask cmpInt at *
  rcases ha : a.state with _ | s1 <;> rcases hb : b.state with _ | s2 <;>
    rcases hc : c.state with _ | s3 <;>
    simp [ha, hb, hc] at hab hbc ⊢ <;> omega

theorem mem_insertSorted (x z : TaskListInfo) (l : List TaskListInfo) :
    z ∈ insertSorted x l ↔ z = x ∨ z ∈ l := by
  induction l with
  | nil => simp [insertSorted]
  | cons y rest ih =>
    by_cases h : cmpTask x y = Ordering.gt <;> simp [insertSorted, h, ih]
    tauto

theorem pairwise_insertSorted (x : TaskListInfo) (l : List TaskListInfo)
    (hl : l.Pairwise (fun a b => cmpTask a b ≠ Ordering.gt)) :
    (insertSorted x l).Pairwise (fun a b => cmpTask a b ≠ Ordering.gt) := by
  induction l with
  | nil => simp [insertSorted]
  | cons y rest ih =>
    rcases List.pairwise_cons.1 hl with ⟨hy, hrest⟩
    by_cases h : cmpTask x y = Ordering.gt
    · simp only [insertSorted, h, if_pos]
      refine List.pairwise_cons.2 ⟨?_, ih hrest⟩
      intro z hz
      rcases (mem_insertSorted x z rest).1 hz with hzx | hzr
      · exact hzx ▸ cmpTask_asymm x y h
      · exact hy z hzr
    · simp only [insertSorted, h, if_neg, not_false_iff]
      refine List.pairwise_cons.2 ⟨?_, hl⟩
      intro z hz
      rcases List.mem_cons.1 hz with hzy | hzr
      · exact hzy ▸ h
      · exact cmpTask_le_trans x y z h (hy z hzr)

theorem pairwise_sortTasks (l : List TaskListInfo) :
    (sortTasks l).Pairwise (fun a b => cmpTask a b ≠ Ordering.gt) := by
  induction l with
  | nil => simp [sortTasks]
  | cons x rest ih => exact pairwise_insertSorted x (sortTasks rest) ih

theorem length_insertSorted (x : TaskListInfo) (l : List TaskListInfo) :
    (insertSorted x l).length = l.length + 1 := by
  induction l with
  | nil => simp [insertSorted]
  | cons y rest ih =>
    by_cases h : cmpTask x y = Ordering.gt <;> simp [insertSorted, h, ih]

theorem length_sortTasks (l : List TaskListInfo) : (sortTasks l).length = l.length := by
  induction l with
  | nil => rfl
  | cons x rest ih => simp [sortTasks, length_insertSorted, ih]

theorem fillFinish_length (mx : Nat) (l : List TaskListInfo)
    (m : List (String × TaskListInfo)) :
    (fillFinish mx m l).length ≤ max m.length (mx + 1) := by
  induction l generalizing m with
  | nil => simp [fillFinish]
  | cons i rest ih =>
    simp only [fillFinish]
    split_ifs with h1 h2
    · exact le_max_left _ _
    · exact ih m
    · have hlen : (alInsert m i.upid_str i).length ≤ mx + 1 := by
        have := alInsert_length m i.upid_str i
        omega
      have h3 := ih (alInsert m i.upid_str i)
      rw [max_eq_right hlen] at h3
      exact le_trans h3 (le_max_right _ _)

theorem foldl_alInsert_length (active : List TaskListInfo)
    (init : List (String × TaskListInfo)) :
    (active.foldl (fun m i => alInsert m i.upid_str i) init).length ≤
      init.length + active.length := by
  induction active generalizing init with
  | nil => simp
  | cons a rest ih =>
    have h1 := alInsert_length init a.upid_str a
    have h2 := ih (alInsert init a.upid_str a)
    simp only [List.foldl_cons, List.length_cons]
    omega

/-- C9 (amended): after `update_active_workers` rewrites the file, the
rows are sorted by the source's comparator — *finished* entries first,
ordered by end time, then active entries ordered by start time — and the
fill loop adds finished entries only while the combined entry count is
at most 1,000, so the file holds at most `max (#active) 1001` rows
(1,001 finished rows are possible). -/
theorem update_active_workers_spec (active finish : List TaskListInfo) :
    List.Pairwise (fun a b => cmpTask a b ≠ Ordering.gt)
      (updateActiveWorkers active finish) ∧
    (updateActiveWorkers active finish).length ≤ max active.length 1001 := by
  constructor
  · exact pairwise_sortTasks _
  · unfold updateActiveWorkers buildTaskHash
    rw [length_sortTasks, List.length_map]
    have h1 := fillFinish_length 1000 finish
      (active.foldl (fun m i => alInsert m i.upid_str i) [])
    have h2 := foldl_alInsert_length active []
    simp only [List.length_nil, Nat.zero_add] at h2
    have : max (active.foldl (fun m i => alInsert m i.upid_str i) []).length 1001 ≤
        max active.length 1001 := max_le_max h2 le_rfl
    omega

/-- C9 counterexample: the claim states active tasks come first.  With
one active and one finished task, the rewritten file lists the
*finished* task first. -/
theorem finished_task_sorts_first :
    updateActiveWorkers [taskActive] [taskFinished] = [taskFinished, taskActive] ∧
    taskActive.state = none ∧ taskFinished.state.isSome = true :=
  ⟨by decide, rfl, rfl⟩

/-! ## C4: sequences of dynamic appends -/

theorem U64LIM_eq : U64LIM = 18446744073709551616 := by norm_num [U64LIM]

theorem U32LIM_eq : U32LIM = 4294967296 := by norm_num [U32LIM]

theorem sumSizes_cons (off size : Nat) (d : Digest) (rest : List (Nat × Nat × Digest)) :
    sumSizes ((off, size, d) :: rest) = size + sumSizes rest := by
  simp [sumSizes]

theorem goodSeq_cons (acc off size : Nat) (d : Digest) (rest : List (Nat × Nat × Digest)) :
    goodSeq acc ((off, size, d) :: rest) = true ↔
      off = acc ∧ 0 < size ∧ goodSeq (acc + size) rest = true := by
  simp [goodSeq, and_assoc]

/-- A single append at the writer's current offset, with positive size
and no `u64` wrap, succeeds and leaves `stepWriter data size d`. -/
theorem append_chunk_ok (s : SharedBackupState) (wid size : Nat) (d : Digest)
    (data : DynamicWriterState)
    (hfin : s.finished = false)
    (hw : alLookup s.dynamic_writers wid = some data)
    (hsync : data.index.lastOffset = data.offset)
    (hpos : 0 < size)
    (hbound : data.offset + size < U64LIM) :
    dynamic_writer_append_chunk s wid data.offset size d =
      (Except.ok (),
       { s with dynamic_writers :=
           alInsert s.dynamic_writers wid (stepWriter data size d) }) := by
  have hmod : (data.offset + size) % U64LIM = data.offset + size := Nat.mod_eq_of_lt hbound
  have hlt : data.index.lastOffset < data.offset + size := by rw [hsync]; omega
  simp [dynamic_writer_append_chunk, hfin, hw, hmod, DynamicIndexWriter.add_chunk, hlt,
    stepWriter]

/-- Success of a whole sequence: offsets at the running sums, positive
sizes, and a total that fits in a `u64` give a successful run whose
final writer offset is the initial offset plus the sum of the sizes. -/
theorem runDynAppends_ok (wid : Nat) (L : List (Nat × Nat × Digest)) :
    ∀ (s : SharedBackupState) (data : DynamicWriterState),
      s.finished = false →
      alLookup s.dynamic_writers wid = some data →
      data.index.lastOffset = data.offset →
      goodSeq data.offset L = true →
      data.offset + sumSizes L < U64LIM →
      ∃ data',
        runDynAppends wid s L =
          Except.ok { s with dynamic_writers := alInsert s.dynamic_writers wid data' } ∧
        data'.offset = data.offset + sumSizes L ∧
        data'.index.lastOffset = data'.offset := by
  induction L with
  | nil =>
    intro s data hfin hw hsync _ _
    refine ⟨data, ?_, by simp [sumSizes], hsync⟩
    simp [runDynAppends, alInsert_self _ _ _ hw]
  | cons t rest ih =>
    obtain ⟨off, size, d⟩ := t
    intro s data hfin hw hsync hgood hbound
    rw [goodSeq_cons] at hgood
    obtain ⟨hoff, hpos, hgood'⟩ := hgood
    subst hoff
    rw [sumSizes_cons] at hbound
    have hb1 : data.offset + size < U64LIM := by omega
    have hstep := append_chunk_ok s wid size d data hfin hw hsync hpos hb1
    obtain ⟨data', hrun, hoff', hsync'⟩ :=
      ih { s with dynamic_writers := alInsert s.dynamic_writers wid (stepWriter data size d) }
        (stepWriter data size d) (by simpa using hfin) (alLookup_alInsert _ _ _) rfl
        (by simpa [stepWriter] using hgood') (by simp [stepWriter]; omega)
    refine ⟨data', ?_, ?_, hsync'⟩
    · simp only [runDynAppends, hstep]
      rw [hrun]
      simp [alInsert_alInsert]
    · rw [hoff']
      simp [stepWriter, sumSizes_cons]
      omega

/-- Necessity: if a whole sequence of appends succeeds, the offsets were
the running sums, the sizes positive, and the total fits in a `u64`. -/
theorem runDynAppends_isOk (wid : Nat) (L : List (Nat × Nat × Digest)) :
    ∀ (s : SharedBackupState) (data : DynamicWriterState),
      s.finished = false →
      alLookup s.dynamic_writers wid = some data →
      data.index.lastOffset = data.offset →
      data.offset < U64LIM →
      (∀ t ∈ L, t.2.1 < U32LIM) →
      (runDynAppends wid s L).isOk = true →
      goodSeq data.offset L = true ∧ data.offset + sumSizes L < U64LIM := by
  induction L with
  | nil =>
    intro s data _ _ _ hob _ _
    simp [goodSeq, sumSizes]
    omega
  | cons t rest ih =>
    obtain ⟨off, size, d⟩ := t
    intro s data hfin hw hsync hob hsz hok
    have hsize : size < U32LIM := hsz (off, size, d) (List.mem_cons_self _ _)
    by_cases hoff : data.offset = off
    · subst hoff
      by_cases hlt : data.index.lastOffset < (data.offset + size) % U64LIM
      · have hnw : data.offset + size < U64LIM ∧ 0 < size := by
          rw [hsync] at hlt
          rw [U64LIM_eq] at *
          rw [U32LIM_eq] at hsize
          omega
        obtain ⟨hbound, hpos⟩ := hnw
        have hstep := append_chunk_ok s wid size d data hfin hw hsync hpos hbound
        simp only [runDynAppends, hstep] at hok
        have key := ih
          { s with dynamic_writers := alInsert s.dynamic_writers wid (stepWriter data size d) }
          (stepWriter data size d) (by simpa using hfin) (alLookup_alInsert _ _ _) rfl
          (by simp [stepWriter]; omega) (fun t ht => hsz t (List.mem_cons_of_mem _ ht)) hok
        obtain ⟨hgood', hbound'⟩ := key
        constructor
        · rw [goodSeq_cons]
          exact ⟨rfl, hpos, by simpa [stepWriter] using hgood'⟩
        · rw [sumSizes_cons]
          simp [stepWriter] at hbound'
          omega
      · simp [runDynAppends, dynamic_writer_append_chunk, hfin, hw,
          DynamicIndexWriter.add_chunk, hlt, Except.isOk, Except.toBool] at hok
    · have hne : data.offset ≠ off := hoff
      simp [runDynAppends, dynamic_writer_append_chunk, hfin, hw, hne,
        Except.isOk, Except.toBool] at hok

/-- C4 (amended): on a freshly registered dynamic writer in an
unfinished session, a whole sequence of
`dynamic_writer_append_chunk(wid, off, sz, d)` calls (with `u64` offsets
and `u32` sizes) succeeds if and only if the `off` values are the
running sums `0, s₀, s₀+s₁, …`, every `sz` is strictly positive, *and*
the total of the sizes fits in a `u64` (the source adds sizes into a
`u64` offset, and a wrapped offset is rejected by the index); after a
successful sequence the writer's offset equals the sum of the appended
sizes; and any single call whose `off` differs from the writer's current
offset fails with the unexpected-offset error. -/
theorem dynamic_append_sequences (L : List (Nat × Nat × Digest))
    (s : SharedBackupState) (wid : Nat) (data : DynamicWriterState)
    (hfin : s.finished = false)
    (hw : alLookup s.dynamic_writers wid = some data)
    (hfresh : data.offset = 0) (hidx : data.index.entries = [])
    (hvalid : validSeq L) :
    ((runDynAppends wid s L).isOk = true ↔
      goodSeq 0 L = true ∧ sumSizes L < U64LIM) ∧
    (goodSeq 0 L = true → sumSizes L < U64LIM →
      ∃ data',
        runDynAppends wid s L =
          Except.ok { s with dynamic_writers := alInsert s.dynamic_writers wid data' } ∧
        data'.offset = sumSizes L) ∧
    (∀ (s' : SharedBackupState) (data' : DynamicWriterState) (off size : Nat) (d : Digest),
      s'.finished = false →
      alLookup s'.dynamic_writers wid = some data' →
      off ≠ data'.offset →
      (dynamic_writer_append_chunk s' wid off size d).1 =
        Except.error (BackupErr.unexpectedOffset data'.offset off)) := by
  have hsync : data.index.lastOffset = data.offset := by
    rw [hfresh]
    simp [DynamicIndexWriter.lastOffset, hidx]
  refine ⟨⟨?_, ?_⟩, ?_, ?_⟩
  · intro hok
    have := runDynAppends_isOk wid L s data hfin hw hsync
      (by rw [hfresh, U64LIM_eq]; omega) (fun t ht => (hvalid t ht).2) hok
    rwa [hfresh, Nat.zero_add] at this
  · rintro ⟨hgood, hbound⟩
    obtain ⟨data', hrun, _, _⟩ := runDynAppends_ok wid L s data hfin hw hsync
      (by rwa [hfresh]) (by rw [hfresh, Nat.zero_add]; exact hbound)
    rw [hrun]
    rfl
  · intro hgood hbound
    obtain ⟨data', hrun, hoff', _⟩ := runDynAppends_ok wid L s data hfin hw hsync
      (by rwa [hfresh]) (by rw [hfresh, Nat.zero_add]; exact hbound)
    exact ⟨data', hrun, by rw [hoff', hfresh, Nat.zero_add]⟩
  · intro s' data' off size d hfin' hw' hne
    have : data'.offset ≠ off := fun h => hne h.symm
    simp [dynamic_writer_append_chunk, hfin', hw', this]

/-- C4 witness: a two-chunk in-order upload on a fresh writer succeeds,
and a call at a wrong offset fails with the unexpected-offset error, at
concrete inputs. -/
theorem dynamic_append_sequences_witness :
    (runDynAppends 1 stateOpenDynamic [(0, 100, 5), (100, 200, 6)]).isOk = true ∧
    (dynamic_writer_append_chunk stateOpenDynamic 1 50 200 6).1 =
      Except.error (BackupErr.unexpectedOffset 0 50) := by
  have h := dynamic_append_sequences [(0, 100, 5), (100, 200, 6)] stateOpenDynamic 1
    dynWriter0 rfl (by decide) rfl rfl (by unfold validSeq; decide)
  constructor
  · exact h.1.2 (by decide)
  · exact h.2.2 stateOpenDynamic dynWriter0 50 200 6 rfl (by decide) (by decide)

theorem prog_snoc (s : Nat) : ∀ (n start : Nat),
    prog s start (n + 1) = prog s start n ++ [(start + n * s, s, 0)] := by
  intro n
  induction n with
  | zero => intro start; simp [prog]
  | succ n ih =>
    intro start
    rw [prog, ih (start + s), prog]
    rw [List.cons_append]
    have : start + s + n * s = start + (n + 1) * s := by
      rw [Nat.succ_mul]
      omega
    rw [this]

theorem goodSeq_prog (s : Nat) (hs : 0 < s) : ∀ (n start : Nat),
    goodSeq start (prog s start n) = true := by
  intro n
  induction n with
  | zero => intro start; simp [prog, goodSeq]
  | succ n ih =>
    intro start
    rw [prog, goodSeq_cons]
    exact ⟨rfl, hs, ih (start + s)⟩

theorem sumSizes_prog (s : Nat) : ∀ (n start : Nat), sumSizes (prog s start n) = n * s := by
  intro n
  induction n with
  | zero => intro start; simp [prog, sumSizes]
  | succ n ih =>
    intro start
    rw [prog, sumSizes_cons, ih (start + s), Nat.succ_mul]
    omega

theorem mem_prog (s : Nat) : ∀ (n start : Nat) (t : Nat × Nat × Digest),
    t ∈ prog s start n → (∃ i, i < n ∧ t.1 = start + i * s) ∧ t.2.1 = s := by
  intro n
  induction n with
  | zero => intro start t ht; simp [prog] at ht
  | succ n ih =>
    intro start t ht
    rw [prog] at ht
    rcases List.mem_cons.1 ht with h | h
    · subst h
      exact ⟨⟨0, by omega, by simp⟩, rfl⟩
    · obtain ⟨⟨i, hi, hoff⟩, hsz⟩ := ih (start + s) t h
      refine ⟨⟨i + 1, by omega, ?_⟩, hsz⟩
      rw [hoff, Nat.succ_mul]
      omega

theorem runDynAppends_append (wid : Nat) (L2 : List (Nat × Nat × Digest)) :
    ∀ (L1 : List (Nat × Nat × Digest)) (s : SharedBackupState),
      runDynAppends wid s (L1 ++ L2) =
        match runDynAppends wid s L1 with
        | Except.ok s1 => runDynAppends wid s1 L2
        | Except.error e => Except.error e := by
  intro L1
  induction L1 with
  | nil => intro s; simp [runDynAppends]
  | cons t rest ih =>
    obtain ⟨off, size, d⟩ := t
    intro s
    simp only [List.cons_append, runDynAppends]
    cases hstep : dynamic_writer_append_chunk s wid off size d with
    | mk r s1 =>
      cases r with
      | ok u => simp [ih s1]
      | error e => simp

/-- An append at the writer's current offset whose new (wrapped) offset
does not strictly exceed the index's last offset is rejected by
`add_chunk`, with the offset and chunk-count bumps left in place. -/
theorem append_chunk_wrap_fails (s : SharedBackupState) (wid size : Nat) (d : Digest)
    (data : DynamicWriterState)
    (hfin : s.finished = false)
    (hw : alLookup s.dynamic_writers wid = some data)
    (hnot : ¬ data.index.lastOffset < (data.offset + size) % U64LIM) :
    dynamic_writer_append_chunk s wid data.offset size d =
      (Except.error BackupErr.badChunkOffset,
       { s with
           dynamic_writers :=
             alInsert s.dynamic_writers wid
               { data with offset := (data.offset + size) % U64LIM,
                           chunk_count := (data.chunk_count + 1) % U64LIM } }) := by
  simp [dynamic_writer_append_chunk, hfin, hw, DynamicIndexWriter.add_chunk, hnot]

/-- C4 counterexample: the claim's iff, as stated, fails at a sequence
of `2 ^ 32 + 2` maximal `u32`-sized chunks whose offsets are exactly the
running sums (all of them valid `u64` values) and whose sizes are all
positive: the final append wraps the 64-bit writer offset, the index
rejects the non-increasing end offset, and the run fails even though the
claim's condition holds. -/
theorem dynamic_append_wrap_counterexample :
    goodSeq 0 wrapSeq = true ∧ validSeq wrapSeq ∧
    (runDynAppends 1 stateOpenDynamic wrapSeq).isOk = false := by
  refine ⟨goodSeq_prog _ (by norm_num) _ 0, ?_, ?_⟩
  · intro t ht
    obtain ⟨⟨i, hi, hoff⟩, hsz⟩ := mem_prog _ _ _ t (by simpa [wrapSeq] using ht)
    constructor
    · rw [hoff, U64LIM_eq]
      have h1 : i ≤ 2 ^ 32 + 1 := by omega
      have h2 : i * (2 ^ 32 - 1) ≤ (2 ^ 32 + 1) * (2 ^ 32 - 1) :=
        Nat.mul_le_mul_right _ h1
      norm_num at h2 ⊢
      omega
    · rw [hsz, U32LIM_eq]
      norm_num
  · have hsplit : wrapSeq =
        prog (2 ^ 32 - 1) 0 (2 ^ 32 + 1) ++ [(18446744073709551615, 2 ^ 32 - 1, 0)] := by
      have h1 : (2 : Nat) ^ 32 + 2 = (2 ^ 32 + 1) + 1 := by norm_num
      rw [wrapSeq, h1, prog_snoc]
      norm_num
    obtain ⟨data', hrun, hoffv, hsync'⟩ :=
      runDynAppends_ok 1 (prog (2 ^ 32 - 1) 0 (2 ^ 32 + 1)) stateOpenDynamic dynWriter0
        rfl (by decide) rfl (goodSeq_prog _ (by norm_num) _ 0)
        (by rw [sumSizes_prog]; norm_num [U64LIM, dynWriter0])
    have hoffval : data'.offset = 18446744073709551615 := by
      rw [hoffv, sumSizes_prog]
      norm_num [dynWriter0]
    have hnot : ¬ data'.index.lastOffset < (data'.offset + (2 ^ 32 - 1)) % U64LIM := by
      rw [hsync', hoffval, U64LIM_eq]
      norm_num
    have hfail := append_chunk_wrap_fails
      { stateOpenDynamic with
          dynamic_writers := alInsert stateOpenDynamic.dynamic_writers 1 data' }
      1 (2 ^ 32 - 1) 0 data' rfl (alLookup_alInsert _ _ _) hnot
    rw [hsplit, runDynAppends_append, hrun]
    have hN : (18446744073709551615 : Nat) = data'.offset := hoffval.symm
    simp only [runDynAppends, hN, hfail, Except.isOk, Except.toBool]

/-! ## C8: UPID round-trip -/

theorem hexVal_hexDigitChar : ∀ m, m < 16 → hexVal (hexDigitChar m) = some m := by
  decide

theorem toHexAux_eq (n : Nat) : ∀ (f1 f2 : Nat), n < f1 → n < f2 →
    toHexAux f1 n = toHexAux f2 n := by
  induction n using Nat.strong_induction_on with
  | _ n ih =>
    intro f1 f2 h1 h2
    obtain ⟨g1, rfl⟩ : ∃ g, f1 = g + 1 := ⟨f1 - 1, by omega⟩
    obtain ⟨g2, rfl⟩ : ∃ g, f2 = g + 1 := ⟨f2 - 1, by omega⟩
    simp only [toHexAux]
    by_cases h : n < 16
    · simp [h]
    · simp only [h, if_false]
      have hd : n / 16 < n := Nat.div_lt_self (by omega) (by omega)
      rw [ih (n / 16) hd g1 g2 (by omega) (by omega)]

theorem toHexRev_eq (n : Nat) : toHexRev n =
    if n < 16 then [hexDigitChar n] else hexDigitChar (n % 16) :: toHexRev (n / 16) := by
  rw [toHexRev, toHexAux]
  by_cases h : n < 16
  · simp [h]
  · simp only [h, if_false]
    have hd : n / 16 < n := Nat.div_lt_self (by omega) (by omega)
    rw [toHexAux_eq (n / 16) n (n / 16 + 1) (by omega) (by omega)]
    rfl

theorem fromHexRev_toHexRev (n : Nat) : fromHexRev (toHexRev n) = some n := by
  induction n using Nat.strong_induction_on with
  | _ n ih =>
    rw [toHexRev_eq]
    by_cases h : n < 16
    · simp [h, fromHexRev, hexVal_hexDigitChar n h]
    · have hd : n / 16 < n := Nat.div_lt_self (by omega) (by omega)
      simp only [h, if_false, fromHexRev,
        hexVal_hexDigitChar (n % 16) (Nat.mod_lt _ (by omega)), ih (n / 16) hd]
      congr 1
      omega

theorem toHexRev_hex (n : Nat) : ∀ c ∈ toHexRev n, (hexVal c).isSome = true := by
  induction n using Nat.strong_induction_on with
  | _ n ih =>
    rw [toHexRev_eq]
    by_cases h : n < 16
    · simp only [h, if_true]
      intro c hc
      rw [List.mem_singleton.1 hc, hexVal_hexDigitChar n h]
      rfl
    · simp only [h, if_false]
      intro c hc
      rcases List.mem_cons.1 hc with rfl | hc'
      · rw [hexVal_hexDigitChar (n % 16) (Nat.mod_lt _ (by omega))]
        rfl
      · exact ih (n / 16) (Nat.div_lt_self (by omega) (by omega)) c hc'

theorem toHexRev_length_le : ∀ (k n : Nat), 0 < k → n < 16 ^ k →
    (toHexRev n).length ≤ k := by
  intro k
  induction k with
  | zero => intro n h; omega
  | succ k ih =>
    intro n _ hn
    rw [toHexRev_eq]
    by_cases h : n < 16
    · simp [h]
    · simp only [h, if_false, List.length_cons]
      have hk : 0 < k := by
        rcases Nat.eq_zero_or_pos k with hk0 | hk0
        · rw [hk0] at hn
          norm_num at hn
          omega
        · exact hk0
      have hdiv : n / 16 < 16 ^ k := by
        rw [Nat.div_lt_iff_lt_mul (by norm_num)]
        calc n < 16 ^ (k + 1) := hn
          _ = 16 ^ k * 16 := by rw [pow_succ]
      have := ih (n / 16) hk hdiv
      omega

theorem toHexRev_ne_nil (n : Nat) : toHexRev n ≠ [] := by
  rw [toHexRev_eq]
  split <;> simp

theorem fromHexRev_zeros (k : Nat) : fromHexRev (List.replicate k '0') = some 0 := by
  induction k with
  | zero => rfl
  | succ k ih => simp [List.replicate_succ, fromHexRev, ih, hexVal]

theorem fromHexRev_append_zeros (xs : List Char) (k : Nat) :
    fromHexRev (xs ++ List.replicate k '0') = fromHexRev xs := by
  induction xs with
  | nil => simp [fromHexRev_zeros k, fromHexRev]
  | cons c rest ih => simp [fromHexRev, ih]

theorem padHex_reverse (w n : Nat) :
    (padHex w n).reverse = toHexRev n ++ List.replicate (w - (toHex n).length) '0' := by
  simp [padHex, toHex, List.reverse_append, List.reverse_replicate]

theorem padHex_length (w n : Nat) :
    (padHex w n).length = max w (toHexRev n).length := by
  simp [padHex, toHex]
  omega

theorem padHex_ne_nil (w n : Nat) : padHex w n ≠ [] := by
  intro h
  have h1 := congrArg List.length h
  rw [padHex_length] at h1
  have hpos : 0 < (toHexRev n).length := List.length_pos.2 (toHexRev_ne_nil n)
  have h0 : max w (toHexRev n).length = 0 := by simpa using h1
  have := (Nat.max_eq_zero_iff.1 h0).2
  omega

theorem fromHex_padHex (w n : Nat) : fromHex (padHex w n) = some n := by
  rw [fromHex, if_neg (padHex_ne_nil w n), padHex_reverse, fromHexRev_append_zeros,
    fromHexRev_toHexRev]

theorem padHex_all_hex (w n : Nat) :
    (padHex w n).all (fun c => (hexVal c).isSome) = true := by
  rw [List.all_eq_true]
  intro c hc
  rw [padHex] at hc
  rcases List.mem_append.1 hc with h | h
  · rw [List.eq_of_mem_replicate h]
    rfl
  · exact toHexRev_hex n c (List.mem_reverse.1 h)

theorem hexField_padHex8 (minL maxL n k : Nat) (hmin : minL ≤ 8) (h8 : 8 ≤ maxL)
    (hk : 0 < k) (hkmax : k ≤ maxL) (hn : n < 16 ^ k) :
    hexField minL maxL (padHex 8 n) = some n := by
  have hlen := padHex_length 8 n
  have hle := toHexRev_length_le k n hk hn
  rw [hexField, if_pos ⟨by omega, by omega, padHex_all_hex 8 n⟩, fromHex_padHex]

theorem splitColon_no_colon (x : List Char) (hx : ':' ∉ x) : splitColon x = [x] := by
  induction x with
  | nil => rfl
  | cons c rest ih =>
    have hc : c ≠ ':' := fun h => hx (h ▸ List.mem_cons_self _ _)
    have hr : ':' ∉ rest := fun h => hx (List.mem_cons_of_mem _ h)
    simp only [splitColon, ih hr]
    simp [hc]

theorem splitColon_append (x rest : List Char) (hx : ':' ∉ x) :
    splitColon (x ++ ':' :: rest) = x :: splitColon rest := by
  induction x with
  | nil => simp [splitColon]
  | cons c x' ih =>
    have hc : c ≠ ':' := fun h => hx (h ▸ List.mem_cons_self _ _)
    have hx' : ':' ∉ x' := fun h => hx (List.mem_cons_of_mem _ h)
    simp only [List.cons_append, splitColon, List.append_eq]
    rw [ih hx']
    simp [hc]

theorem padHex_no_colon (w n : Nat) : ':' ∉ padHex w n := by
  intro hc
  have h := List.all_eq_true.1 (padHex_all_hex w n) ':' hc
  simp [hexVal] at h

theorem plain_no_colon (l : List Char) (h : l.all plainChar = true) : ':' ∉ l := by
  intro hc
  have := List.all_eq_true.1 h ':' hc
  simp [plainChar] at this

theorem nodeTail_mem : ∀ (l : List Char), nodeTail l = true →
    ∀ c ∈ l, (isAlnum c || c = '-') = true := by
  intro l
  induction l with
  | nil => simp
  | cons c rest ih =>
    cases rest with
    | nil =>
      intro h d hd
      rw [List.mem_singleton.1 hd]
      simp only [nodeTail] at h
      simp [h]
    | cons e rest' =>
      intro h d hd
      simp only [nodeTail, Bool.and_eq_true] at h
      rcases List.mem_cons.1 hd with rfl | hd'
      · exact h.1
      · exact ih h.2 d hd'

theorem nodeOk_no_colon (l : List Char) (h : nodeOk l = true) : ':' ∉ l := by
  cases l with
  | nil => simp
  | cons c rest =>
    intro hc
    simp only [nodeOk, Bool.and_eq_true] at h
    rcases List.mem_cons.1 hc with rfl | hc'
    · exact absurd h.1 (by decide)
    · have := nodeTail_mem rest h.2 ':' hc'
      exact absurd this (by decide)

/-- C8 (amended): `parse(format(u)) == u` holds exactly for the UPIDs the
anchored regex can represent: non-negative `pid` (below `2 ^ 31`),
`pstart` below `16 ^ 9` (at most nine hex digits), `starttime` in
`[0, 2 ^ 32)` (exactly eight hex digits), any `task_id` a `usize` admits,
a node name matching `[a-zA-Z0-9]([a-zA-Z0-9-]*[a-zA-Z0-9])?`, and
non-empty `worker_type` / `username` (and `worker_id`, when present)
free of `':'` and whitespace. -/
theorem upid_roundtrip (u : UPID)
    (hpid0 : 0 ≤ u.pid) (hpid : u.pid < 2 ^ 31)
    (hpstart : u.pstart < 16 ^ 9)
    (hst0 : 0 ≤ u.starttime) (hst : u.starttime < 2 ^ 32)
    (htask : u.task_id < 2 ^ 64)
    (hnode : nodeOk u.node = true)
    (hwt1 : u.worker_type ≠ []) (hwt2 : u.worker_type.all plainChar = true)
    (hwid : ∀ w, u.worker_id = some w → w ≠ [] ∧ w.all plainChar = true)
    (hun1 : u.username ≠ []) (hun2 : u.username.all plainChar = true) :
    upidParse (upidFormat u) = some u := by
  obtain ⟨pid, pstart, stime, tid, wt, wi, un, nd⟩ := u
  dsimp only at hpid0 hpid hpstart hst0 hst htask hnode hwt1 hwt2 hwid hun1 hun2
  norm_num at hpid hpstart hst htask
  have hi32 : i32bits pid = pid.toNat := by
    unfold i32bits
    rw [Int.emod_eq_of_lt hpid0 (by omega)]
  have hi64 : i64bits stime = stime.toNat := by
    unfold i64bits
    rw [Int.emod_eq_of_lt hst0 (by omega)]
  have hpidlt : pid.toNat < 16 ^ 8 := by norm_num; omega
  have hstlt : stime.toNat < 16 ^ 8 := by norm_num; omega
  have hpstart' : pstart < 16 ^ 9 := by norm_num; omega
  have htask' : tid < 16 ^ 16 := by norm_num; omega
  have hnc1 : ':' ∉ (['U', 'P', 'I', 'D'] : List Char) := by decide
  have hncn : ':' ∉ nd := nodeOk_no_colon nd hnode
  have hncwt : ':' ∉ wt := plain_no_colon wt hwt2
  have hncwid : ':' ∉ wi.getD [] := by
    cases wi with
    | none => simp
    | some w => exact plain_no_colon w (hwid w rfl).2
  have hncun : ':' ∉ un := plain_no_colon un hun2
  have hsplit : splitColon (upidFormat ⟨pid, pstart, stime, tid, wt, wi, un, nd⟩) =
      [['U', 'P', 'I', 'D'], nd, padHex 8 (i32bits pid), padHex 8 pstart, padHex 8 tid,
       padHex 8 (i64bits stime), wt, wi.getD [], un, []] := by
    simp only [upidFormat, joinColon]
    rw [splitColon_append _ _ hnc1, splitColon_append _ _ hncn,
      splitColon_append _ _ (padHex_no_colon _ _),
      splitColon_append _ _ (padHex_no_colon _ _),
      splitColon_append _ _ (padHex_no_colon _ _),
      splitColon_append _ _ (padHex_no_colon _ _),
      splitColon_append _ _ hncwt, splitColon_append _ _ hncwid,
      splitColon_append _ _ hncun]
    rfl
  have hwidall : (wi.getD []).all plainChar = true := by
    cases wi with
    | none => rfl
    | some w => exact (hwid w rfl).2
  unfold upidParse
  rw [hsplit]
  dsimp only
  rw [if_pos ⟨rfl, rfl, hnode, hwt1, hwt2, hwidall, hun1, hun2⟩]
  rw [hi32, hi64]
  rw [hexField_padHex8 8 8 pid.toNat 8 (by norm_num) (by norm_num) (by norm_num)
      (by norm_num) hpidlt,
    hexField_padHex8 8 9 pstart 9 (by norm_num) (by norm_num) (by norm_num)
      (by norm_num) hpstart',
    hexField_padHex8 8 16 tid 16 (by norm_num) (by norm_num) (by norm_num)
      (by norm_num) htask',
    hexField_padHex8 8 8 stime.toNat 8 (by norm_num) (by norm_num) (by norm_num)
      (by norm_num) hstlt]
  dsimp only
  rw [if_pos (by omega)]
  cases wi with
  | none => simp [Int.toNat_of_nonneg hpid0, Int.toNat_of_nonneg hst0]
  | some w =>
    have hw := hwid w rfl
    simp [Int.toNat_of_nonneg hpid0, Int.toNat_of_nonneg hst0, hw.1]

/-- C8 witness: the round-trip at a concrete representable UPID. -/
theorem upid_roundtrip_witness :
    upidParse (upidFormat
      { pid := 42, pstart := 3, starttime := 100, task_id := 1,
        worker_type := ['b'], worker_id := none,
        username := ['r', 'o', 'o', 't'], node := ['n', '1'] }) =
      some { pid := 42, pstart := 3, starttime := 100, task_id := 1,
             worker_type := ['b'], worker_id := none,
             username := ['r', 'o', 'o', 't'], node := ['n', '1'] } :=
  upid_roundtrip _ (by decide) (by decide) (by decide) (by decide) (by decide)
    (by decide) (by decide) (by decide) (by decide) (fun w h => nomatch h)
    (by decide) (by decide)

/-- C8 counterexample: the claim quantifies over all field values the
UPID type admits.  A UPID with `worker_id = Some("")` formats to an
empty worker-id field, which parses back as `None`: the round trip
fails.  (Fields with colons or whitespace, negative or nine-plus-digit
numeric values likewise fail to round-trip; this is the smallest such
counterexample.) -/
theorem upid_empty_wid_not_roundtrip :
    upidParse (upidFormat upidEmptyWid) ≠ some upidEmptyWid := by
  decide

end PBS
